import Mathlib

/-!
Verification of the QuCumber repository specification against the sources
present in the repository: the SLURM array-job script, the density-matrix
tutorial notebook (including its recorded training output), and the
documentation search index.  The qucumber Python package itself is not among
the sources, so components named only by the spec and the documentation index
are modelled from the spec's words; definitions carrying a
`Modelled from the spec:` doc comment are of that kind.
-/

namespace QuCumber

/-! ## Energy model (BinaryRBM) -/

/-- Modelled from the spec: the Energy Model state of `qucumber.binary_rbm.BinaryRBM`
(the module source is not in the repository snapshot): a weight matrix
(hidden by visible, as in the documented `F.linear` convention), a visible bias
vector and a hidden bias vector, all real-valued, dimensions fixed by the type. -/
structure BinaryRBM (n m : ℕ) where
  weights : Fin m → Fin n → ℝ
  visible_bias : Fin n → ℝ
  hidden_bias : Fin m → ℝ

/-- Numeric value of a binary unit: spins are 0/1-valued reals. -/
def boolVal (b : Bool) : ℝ := if b then 1 else 0

/-- Modelled from the spec: the standard RBM energy
E(v,h) = −vᵀWh − aᵀv − bᵀh (spec §4.1). -/
def energy {n m : ℕ} (rbm : BinaryRBM n m) (v : Fin n → ℝ) (h : Fin m → ℝ) : ℝ :=
  -(∑ j, ∑ i, h j * rbm.weights j i * v i)
    - (∑ i, rbm.visible_bias i * v i) - (∑ j, rbm.hidden_bias j * h j)

/-- Modelled from the spec: `BinaryRBM.effective_energy` — the log-sum-exp over
hidden configurations of −E(v,h) (the free energy), spec §4.1. -/
noncomputable def effective_energy {n m : ℕ} (rbm : BinaryRBM n m) (v : Fin n → ℝ) : ℝ :=
  Real.log (∑ h : Fin m → Bool, Real.exp (-(energy rbm v (fun j => boolVal (h j)))))

/-- Modelled from the spec: `BinaryRBM.compute_partition_function` — given an
explicitly enumerated configuration space, sums exp(effective_energy) over it
(spec §4.1). -/
noncomputable def compute_partition_function {n m : ℕ} (rbm : BinaryRBM n m)
    (space : List (Fin n → ℝ)) : ℝ :=
  (space.map fun v => Real.exp (effective_energy rbm v)).sum

/-! ## NN-state wrapper: save / load / psi -/

/-- Modelled from the spec: an NN-state owning its Energy Models — an amplitude
RBM and a phase RBM (the tutorial notebook saves "the weights, and biases of
the two internal RBMs"). -/
structure NNState (n m : ℕ) where
  rbm_am : BinaryRBM n m
  rbm_ph : BinaryRBM n m

/-- Modelled from the spec: a persisted parameter snapshot — an opaque container
holding each owned Energy Model's weight matrix and bias vectors, pure data,
no derived state (spec §4.2, §6). -/
structure Snapshot (n m : ℕ) where
  am_weights : Fin m → Fin n → ℝ
  am_visible_bias : Fin n → ℝ
  am_hidden_bias : Fin m → ℝ
  ph_weights : Fin m → Fin n → ℝ
  ph_visible_bias : Fin n → ℝ
  ph_hidden_bias : Fin m → ℝ

/-- Modelled from the spec: `save` serializes all owned Energy Model parameter
tensors to a snapshot. -/
def save {n m : ℕ} (nn : NNState n m) : Snapshot n m :=
  ⟨nn.rbm_am.weights, nn.rbm_am.visible_bias, nn.rbm_am.hidden_bias,
   nn.rbm_ph.weights, nn.rbm_ph.visible_bias, nn.rbm_ph.hidden_bias⟩

/-- Modelled from the spec: `load` deserializes a snapshot back into an
NN-state's Energy Model parameters. -/
def load {n m : ℕ} (snap : Snapshot n m) : NNState n m :=
  ⟨⟨snap.am_weights, snap.am_visible_bias, snap.am_hidden_bias⟩,
   ⟨snap.ph_weights, snap.ph_visible_bias, snap.ph_hidden_bias⟩⟩

/-- Modelled from the spec: `psi` — the unnormalized amplitude comes from the
amplitude Energy Model's effective energy, exponentiated (spec §4.2). -/
noncomputable def psi {n m : ℕ} (nn : NNState n m) (v : Fin n → ℝ) : ℝ :=
  Real.exp (effective_energy nn.rbm_am v)

/-! ## Trainer fit configuration -/

/-- Modelled from the spec: the hyperparameter arguments of
`QuantumReconstruction.fit` that the defaulting rules concern — the
positive-phase batch size, the optional negative-phase batch size, and the
contrastive-divergence step count (spec §4.3). -/
structure FitArgs where
  pos_batch_size : ℕ
  neg_batch_size : Option ℕ
  k : ℕ

/-- Modelled from the spec: the negative-phase batch size actually used by
`fit` — when the caller supplies none, it defaults to `pos_batch_size`
(spec §4.3 edge conditions; tutorial notebook sets `nbs = pbs` likewise). -/
def effNegBatchSize (args : FitArgs) : ℕ :=
  args.neg_batch_size.getD args.pos_batch_size

/-! ## MetricEvaluator callback -/

/-- Keyword-argument bag handed to each metric function alongside the current
NN-state (spec §4.4, §6 metric function contract). -/
def Kwargs : Type := List (String × ℚ)

/-- Modelled from the spec: `qucumber.callbacks.MetricEvaluator` — an
evaluation period, a mapping of named metric functions (each receiving the
current NN-state and keyword arguments), the stored keyword arguments, and the
record mapping each metric name to its growing sequence of values
(spec §4.4, §3 Callback Record). `S` is the NN-state type the callback
observes. -/
structure MetricEvaluator (S : Type) where
  period : ℕ
  metrics : List (String × (S → Kwargs → ℚ))
  kwargs : Kwargs
  record : String → List ℚ

/-- Modelled from the spec: a fresh `MetricEvaluator` as it stands at training
start — every named sequence exists and is empty. -/
def mkMetricEvaluator (S : Type) (period : ℕ)
    (metrics : List (String × (S → Kwargs → ℚ))) (kwargs : Kwargs) :
    MetricEvaluator S :=
  ⟨period, metrics, kwargs, fun _ => []⟩

/-- Modelled from the spec: one evaluation pass — every named metric function
is invoked on the current NN-state and the keyword arguments, and its result
is appended to that metric's sequence. -/
def evalStep {S : Type} (ev : MetricEvaluator S) (nn : S) : MetricEvaluator S :=
  { ev with record := fun name =>
      match ev.metrics.lookup name with
      | some f => ev.record name ++ [f nn ev.kwargs]
      | none => ev.record name }

/-- Modelled from the spec: the `MetricEvaluator`'s epoch-end hook — it
evaluates the metrics only every `period` epochs, and otherwise leaves the
record untouched. -/
def metricEpochEnd {S : Type} (ev : MetricEvaluator S) (nn : S) (epoch : ℕ) :
    MetricEvaluator S :=
  if epoch % ev.period = 0 then evalStep ev nn else ev

/-- Modelled from the spec: the trainer's interaction with a
`MetricEvaluator` during `fit` — epochs 1, 2, …, `epochs` are run in order and
the epoch-end hook fires after each, receiving the current NN-state
(`nnSeq e` at the end of epoch `e`). -/
def runTraining {S : Type} (ev : MetricEvaluator S) (nnSeq : ℕ → S) :
    ℕ → MetricEvaluator S
  | 0 => ev
  | e + 1 => metricEpochEnd (runTraining ev nnSeq e) (nnSeq (e + 1)) (e + 1)

/-- Modelled from the spec: indexing a `MetricEvaluator` by a metric name
(`callbacks[0]["Fidelity"]` in the tutorial; `get_value` in the documented
API) returns that metric's recorded sequence. -/
def metricGetItem {S : Type} (ev : MetricEvaluator S) (name : String) : List ℚ :=
  ev.record name

/-! ## Callback capability set -/

/-- Modelled from the spec: the callback interface — a callback is exactly a
carrier of the six lifecycle hooks {on_train_start, on_epoch_start,
on_batch_start, on_batch_end, on_epoch_end, on_train_end} (spec §4.4, and the
documented members of `qucumber.callbacks.Callback`).  `S` is the NN-state
type passed to every hook and `σ` the callback's own state; epoch and batch
indices are passed to the hooks that the documented signatures give them to. -/
structure Callback (S : Type) (σ : Type) where
  on_train_start : σ → S → σ
  on_epoch_start : σ → S → ℕ → σ
  on_batch_start : σ → S → ℕ → ℕ → σ
  on_batch_end : σ → S → ℕ → ℕ → σ
  on_epoch_end : σ → S → ℕ → σ
  on_train_end : σ → S → σ

/-- Modelled from the spec: the callback whose every hook is a no-op (the base
`Callback` class behaviour). -/
def noOpCallback (S σ : Type) : Callback S σ :=
  ⟨fun s _ => s, fun s _ _ => s, fun s _ _ _ => s,
   fun s _ _ _ => s, fun s _ _ => s, fun s _ => s⟩

/-- Modelled from the spec: replacing an arbitrary subset of a callback's
hooks by no-ops, the subset chosen by six Boolean flags (one per hook). -/
def maskCallback {S σ : Type} (c : Callback S σ)
    (b1 b2 b3 b4 b5 b6 : Bool) : Callback S σ :=
  ⟨if b1 then fun s _ => s else c.on_train_start,
   if b2 then fun s _ _ => s else c.on_epoch_start,
   if b3 then fun s _ _ _ => s else c.on_batch_start,
   if b4 then fun s _ _ _ => s else c.on_batch_end,
   if b5 then fun s _ _ => s else c.on_epoch_end,
   if b6 then fun s _ => s else c.on_train_end⟩

/-! ## Early stopping -/

/-- Modelled from the spec: the improvement of a loss-like metric at
evaluation `t` (evaluations happen at epoch ends, one per epoch): the drop
from the previous recorded value to the current one (spec §4.4
`EarlyStopping`). `metric e` is the value recorded at the end of epoch `e`. -/
def improvementAt (metric : ℕ → ℚ) (t : ℕ) : ℚ :=
  metric (t - 1) - metric t

/-- Modelled from the spec: the `EarlyStopping` halting test at the end of
epoch `e` — the metric's improvement has stayed below the tolerance for
`patience` consecutive evaluations, which requires at least `patience + 1`
recorded values (epochs `e - patience` through `e`). -/
def esTrigger (tol : ℚ) (patience : ℕ) (metric : ℕ → ℚ) (e : ℕ) : Bool :=
  decide (patience + 1 ≤ e) &&
    (List.range patience).all fun i => decide (improvementAt metric (e - i) < tol)

/-- Modelled from the spec: the trainer's epoch loop under an early-stopping
callback, epoch-granular by construction (no cancellation mid-batch): with
`fuel` epochs still to run and `e` the epoch currently running, the loop ends
at epoch `e` when the halting test fires there, and otherwise proceeds to the
next epoch; with no fuel remaining, training already completed at epoch
`e - 1`.  Returns the last epoch that ran. -/
def esLoop (halt : ℕ → Bool) : ℕ → ℕ → ℕ
  | e, 0 => e - 1
  | e, fuel + 1 => if halt e then e else esLoop halt (e + 1) fuel

/-- Modelled from the spec: a `fit` call of `maxEpochs` epochs (numbered from
1) under an early-stopping callback with halting test `halt`; returns the
epoch at which training halted. -/
def esRun (halt : ℕ → Bool) (maxEpochs : ℕ) : ℕ :=
  esLoop halt 1 maxEpochs

/-! ## SLURM array-job script -/

/-- One command of the batch script body: a program and its arguments. -/
structure Command where
  program : String
  args : List String
deriving DecidableEq

/-- First index of the script's `--array=0-7499%25` range. -/
def slurmArrayLo : ℕ := 0

/-- Last index of the script's `--array=0-7499%25` range. -/
def slurmArrayHi : ℕ := 7499

/-- Path of the training program the script launches. -/
def tfimRunScript : String := "./NNQuST/scaling/tfim_single_run.py"

/-- The body of the SLURM batch script as executed by the array task with
index `taskId`: the `$SLURM_ARRAY_TASK_ID` variable of the last line expands
to the task's own index. -/
def jobBody (taskId : ℕ) : List Command :=
  [⟨"module", ["load", "python/3.6"]⟩,
   ⟨"cd", ["/home/ejaazm/projects/def-rgmelko/ejaazm"]⟩,
   ⟨"source", ["./scaling/bin/activate"]⟩,
   ⟨"python3", [tfimRunScript, toString taskId]⟩]

/-- The training-run launches among a task's commands: the invocations of the
python interpreter on the training program. -/
def trainingRunsOf (taskId : ℕ) : List Command :=
  (jobBody taskId).filter fun c =>
    c.program = "python3" && c.args.head? = some tfimRunScript

/-- The inputs passed to a launched training run: its arguments beyond the
training program's path. -/
def runInputs (c : Command) : List String := c.args.drop 1

/-- The script tokens that do not vary with the array index. -/
def fixedTokens : List String :=
  ["load", "python/3.6", "/home/ejaazm/projects/def-rgmelko/ejaazm",
   "./scaling/bin/activate", tfimRunScript]

/-! ## Default unitary dictionary -/

/-- Reciprocal square root of two, the normalization of the H and K gates. -/
noncomputable def invSqrt2 : ℂ := ((Real.sqrt 2 : ℝ) : ℂ)⁻¹

/-- The 2×2 identity, registered for the computational basis Z. -/
def Zgate : Matrix (Fin 2) (Fin 2) ℂ := 1

/-- The Hadamard gate H, registered for the X basis. -/
noncomputable def Hgate : Matrix (Fin 2) (Fin 2) ℂ :=
  invSqrt2 • !![1, 1; 1, -1]

/-- The K gate, registered for the Y basis. -/
noncomputable def Kgate : Matrix (Fin 2) (Fin 2) ℂ :=
  invSqrt2 • !![1, 1; Complex.I, -Complex.I]

/-- Modelled from the spec: `qucumber.utils.unitaries.create_dict()` called
with no arguments — per the tutorial notebook, "it will contain the identity
and the H and K gates by default under the keys Z, X and Y, respectively". -/
noncomputable def create_dict : List (String × Matrix (Fin 2) (Fin 2) ℂ) :=
  [("Z", Zgate), ("X", Hgate), ("Y", Kgate)]

/-! ## Tutorial training data and recorded trajectory -/

/-- The tutorial's epoch count hyperparameter (`epochs = 500`). -/
def tutorialEpochs : ℕ := 500

/-- The tutorial's evaluation period (`period = 25`). -/
def tutorialPeriod : ℕ := 25

/-- The tutorial's contrastive-divergence step count (`k = 10`). -/
def tutorialK : ℕ := 10

/-- The tutorial dataset size: 900 measurement shots, 100 in each of the 3²
permutations of the bases X, Y and Z. -/
def tutorialNumSamples : ℕ := 900

/-- The tutorial notebook's recorded training trajectory: the printed
`Epoch / Fidelity / KL` evaluation lines of the `fit` cell, one triple per
evaluation, values exactly as printed. -/
def tutorialTrajectory : List (ℕ × ℚ × ℚ) :=
  [(25, 863061/1000000, 50122/1000000),
   (50, 946054/1000000, 13152/1000000),
   (75, 950760/1000000, 16754/1000000),
   (100, 957204/1000000, 15601/1000000),
   (125, 960522/1000000, 13925/1000000),
   (150, 957411/1000000, 17446/1000000),
   (175, 961068/1000000, 13377/1000000),
   (200, 966589/1000000, 10754/1000000),
   (225, 951836/1000000, 17970/1000000),
   (250, 960255/1000000, 12612/1000000),
   (275, 961232/1000000, 12477/1000000),
   (300, 963946/1000000, 11832/1000000),
   (325, 959750/1000000, 13571/1000000),
   (350, 965108/1000000, 11095/1000000),
   (375, 965353/1000000, 11048/1000000),
   (400, 963568/1000000, 11941/1000000),
   (425, 966334/1000000, 11148/1000000),
   (450, 965549/1000000, 11321/1000000),
   (475, 965054/1000000, 11573/1000000),
   (500, 965568/1000000, 10963/1000000)]

/-! ## Concrete instances for evaluation -/

/-- A 1-visible/1-hidden RBM with all parameters zero. -/
def rbmZero : BinaryRBM 1 1 := ⟨fun _ _ => 0, fun _ => 0, fun _ => 0⟩

/-- A one-configuration visible space for the zero RBM. -/
def spaceZero : List (Fin 1 → ℝ) := [fun _ => 0]

/-- A concrete metric history: improves by 1 per epoch for three epochs, then
stalls. -/
def metricW : ℕ → ℚ := fun t => if t ≤ 3 then 10 - (t : ℚ) else 7

/-- A concrete constant metric function over natural-number NN-states. -/
def metricOne : ℕ → Kwargs → ℚ := fun _ _ => 1

/-- A concrete one-entry metric dictionary. -/
def msOne : List (String × (ℕ → Kwargs → ℚ)) := [("m", metricOne)]

/-- A concrete constant NN-state trajectory. -/
def nnSeqZero : ℕ → ℕ := fun _ => 0

/-- An empty keyword-argument bag. -/
def kwNil : Kwargs := []

/-! # Theorems -/

/-- Claim C2: for every NN-state instance and every fixed input configuration
`v`, calling `save` to a snapshot and then `load` from that snapshot
reproduces bit-identical Energy Model parameter tensors, and `psi v` evaluated
after `load` equals `psi v` evaluated before `save`. -/
theorem C2_save_load_roundtrip {n m : ℕ} (nn : NNState n m) :
    load (save nn) = nn
      ∧ (load (save nn)).rbm_am.weights = nn.rbm_am.weights
      ∧ (load (save nn)).rbm_am.visible_bias = nn.rbm_am.visible_bias
      ∧ (load (save nn)).rbm_am.hidden_bias = nn.rbm_am.hidden_bias
      ∧ (load (save nn)).rbm_ph.weights = nn.rbm_ph.weights
      ∧ (load (save nn)).rbm_ph.visible_bias = nn.rbm_ph.visible_bias
      ∧ (load (save nn)).rbm_ph.hidden_bias = nn.rbm_ph.hidden_bias
      ∧ ∀ v, psi (load (save nn)) v = psi nn v :=
  ⟨rfl, rfl, rfl, rfl, rfl, rfl, rfl, fun _ => rfl⟩

/-- Claim C3: in the trainer's `fit` operation, whenever the caller does not
supply `neg_batch_size`, the negative-phase batch size used equals
`pos_batch_size`; when it is supplied, the supplied value is used. -/
theorem C3_neg_batch_size_default (pbs k : ℕ) :
    effNegBatchSize ⟨pbs, none, k⟩ = pbs
      ∧ ∀ nbs, effNegBatchSize ⟨pbs, some nbs, k⟩ = nbs :=
  ⟨rfl, fun _ => rfl⟩

/-- Claim C5: every callback is polymorphic over exactly the capability set
{on_train_start, on_epoch_start, on_batch_start, on_batch_end, on_epoch_end,
on_train_end} — a callback is nothing beyond those six hooks — and any subset
of the hooks may be a no-op: each hook of the no-op callback leaves the
callback state unchanged, masking all hooks of any callback gives the no-op
callback, masking none gives the callback back, and masking any chosen subset
replaces exactly the chosen hooks by no-ops. -/
theorem C5_callback_capability_set (S σ : Type) :
    (∀ (s : σ) (nn : S) (e b : ℕ),
      (noOpCallback S σ).on_train_start s nn = s
        ∧ (noOpCallback S σ).on_epoch_start s nn e = s
        ∧ (noOpCallback S σ).on_batch_start s nn e b = s
        ∧ (noOpCallback S σ).on_batch_end s nn e b = s
        ∧ (noOpCallback S σ).on_epoch_end s nn e = s
        ∧ (noOpCallback S σ).on_train_end s nn = s)
    ∧ (∀ c : Callback S σ,
        c = ⟨c.on_train_start, c.on_epoch_start, c.on_batch_start,
             c.on_batch_end, c.on_epoch_end, c.on_train_end⟩)
    ∧ (∀ c : Callback S σ,
        maskCallback c true true true true true true = noOpCallback S σ
          ∧ maskCallback c false false false false false false = c)
    ∧ (∀ (c : Callback S σ) (b1 b2 b3 b4 b5 b6 : Bool),
        (maskCallback c b1 b2 b3 b4 b5 b6).on_train_start
            = (if b1 then (noOpCallback S σ).on_train_start else c.on_train_start)
          ∧ (maskCallback c b1 b2 b3 b4 b5 b6).on_epoch_start
            = (if b2 then (noOpCallback S σ).on_epoch_start else c.on_epoch_start)
          ∧ (maskCallback c b1 b2 b3 b4 b5 b6).on_batch_start
            = (if b3 then (noOpCallback S σ).on_batch_start else c.on_batch_start)
          ∧ (maskCallback c b1 b2 b3 b4 b5 b6).on_batch_end
            = (if b4 then (noOpCallback S σ).on_batch_end else c.on_batch_end)
          ∧ (maskCallback c b1 b2 b3 b4 b5 b6).on_epoch_end
            = (if b5 then (noOpCallback S σ).on_epoch_end else c.on_epoch_end)
          ∧ (maskCallback c b1 b2 b3 b4 b5 b6).on_train_end
            = (if b6 then (noOpCallback S σ).on_train_end else c.on_train_end)) := by
  refine ⟨fun s nn e b => ⟨rfl, rfl, rfl, rfl, rfl, rfl⟩, fun c => rfl, fun c => ⟨rfl, rfl⟩,
    fun c b1 b2 b3 b4 b5 b6 => ⟨?_, ?_, ?_, ?_, ?_, ?_⟩⟩ <;>
    simp only [maskCallback, noOpCallback]

/-- Claim C6: for every explicitly enumerated configuration space,
`compute_partition_function` returns exactly the sum over that space of
exp(effective_energy), and (the space being nonempty) the returned value is
strictly positive. -/
theorem C6_partition_function_sum_pos {n m : ℕ} (rbm : BinaryRBM n m)
    (space : List (Fin n → ℝ)) (hne : space ≠ []) :
    compute_partition_function rbm space
        = (space.map fun v => Real.exp (effective_energy rbm v)).sum
      ∧ 0 < compute_partition_function rbm space := by
  refine ⟨rfl, ?_⟩
  apply List.sum_pos
  · intro x hx
    obtain ⟨v, _, rfl⟩ := List.mem_map.mp hx
    exact Real.exp_pos _
  · intro h
    exact hne (List.map_eq_nil_iff.mp h)

/-- Witness for C6: the zero 1×1 RBM on a one-configuration space. -/
theorem C6_partition_function_sum_pos_witness :
    spaceZero ≠ []
      ∧ (compute_partition_function rbmZero spaceZero
            = (spaceZero.map fun v => Real.exp (effective_energy rbmZero v)).sum
          ∧ 0 < compute_partition_function rbmZero spaceZero) :=
  ⟨by simp [spaceZero],
   C6_partition_function_sum_pos rbmZero spaceZero (by simp [spaceZero])⟩

/-- Claim C1: the tutorial's 2-qubit W-state training run (900 samples, 500
epochs, contrastive-divergence step count k = 10) ends, per the notebook's
recorded trajectory, with a fidelity exceeding 0.9 and a KL divergence below
0.02. -/
theorem C1_tutorial_final_metrics :
    tutorialEpochs = 500 ∧ tutorialK = 10 ∧ tutorialNumSamples = 900
      ∧ ∃ fid kl : ℚ,
          tutorialTrajectory.getLast? = some (tutorialEpochs, fid, kl)
            ∧ 9 / 10 < fid ∧ kl < 1 / 50 := by
  exact ⟨rfl, rfl, rfl, 965568/1000000, 10963/1000000, rfl, by norm_num, by norm_num⟩

/-- Claim C8: for every array index of the `--array=0-7499%25` range, the job
submission script launches exactly one training run, that run's arguments
beyond the training program's path are exactly the task's own index, and every
token of the task's command list is either a fixed script constant or the
task's own index — no reference to any other array task. -/
theorem C8_slurm_one_run_per_index (i : ℕ)
    (_hlo : slurmArrayLo ≤ i) (_hhi : i ≤ slurmArrayHi) :
    trainingRunsOf i = [⟨"python3", [tfimRunScript, toString i]⟩]
      ∧ runInputs ⟨"python3", [tfimRunScript, toString i]⟩ = [toString i]
      ∧ ∀ c ∈ jobBody i, ∀ a ∈ c.args, a ∈ fixedTokens ∨ a = toString i := by
  refine ⟨rfl, rfl, ?_⟩
  intro c hc a ha
  simp only [jobBody, List.mem_cons, List.not_mem_nil, or_false] at hc
  rcases hc with rfl | rfl | rfl | rfl <;>
    simp only [List.mem_cons, List.not_mem_nil, or_false] at ha <;>
    rcases ha with rfl | rfl <;> simp [fixedTokens, tfimRunScript]

/-- Witness for C8: the first array index. -/
theorem C8_slurm_one_run_per_index_witness :
    (slurmArrayLo ≤ 0 ∧ 0 ≤ slurmArrayHi)
      ∧ (trainingRunsOf 0 = [⟨"python3", [tfimRunScript, toString 0]⟩]
          ∧ runInputs ⟨"python3", [tfimRunScript, toString 0]⟩ = [toString 0]
          ∧ ∀ c ∈ jobBody 0, ∀ a ∈ c.args, a ∈ fixedTokens ∨ a = toString 0) :=
  ⟨⟨by decide, by decide⟩,
   C8_slurm_one_run_per_index 0 (by decide) (by decide)⟩

/-- The epoch loop ends at the first epoch whose halting test fires, provided
that epoch lies within the scheduled epochs. -/
theorem esLoop_first_halt (halt : ℕ → Bool) (estar : ℕ) (h3 : halt estar = true) :
    ∀ fuel e, e ≤ estar → estar < e + fuel →
      (∀ t, e ≤ t → t < estar → halt t = false) →
      esLoop halt e fuel = estar := by
  intro fuel
  induction fuel with
  | zero => intro e h1 h2 _; omega
  | succ fuel ih =>
    intro e h1 h2 h4
    by_cases he : e = estar
    · subst he; simp [esLoop, h3]
    · have hlt : e < estar := lt_of_le_of_ne h1 he
      have hfe : halt e = false := h4 e le_rfl hlt
      simp only [esLoop, hfe, Bool.false_eq_true, if_false]
      exact ih (e + 1) hlt (by omega) (fun t ht1 ht2 => h4 t (by omega) ht2)

/-- Claim C7: if the monitored metric's improvement stays below the tolerance
for `patience` consecutive evaluations, the early-stopping callback halts
training at the epoch where the patience threshold is first exceeded and at no
later epoch; the model's halting happens only at epoch boundaries by
construction of the epoch loop. -/
theorem C7_early_stopping_halts_first (tol : ℚ) (patience : ℕ) (metric : ℕ → ℚ)
    (maxEpochs estar : ℕ) (h1 : 1 ≤ estar) (h2 : estar ≤ maxEpochs)
    (h3 : esTrigger tol patience metric estar = true)
    (h4 : ∀ t, t < estar → esTrigger tol patience metric t = false) :
    esRun (esTrigger tol patience metric) maxEpochs = estar :=
  esLoop_first_halt _ _ h3 maxEpochs 1 h1 (by omega)
    (fun t _ ht2 => h4 t ht2)

/-- Witness for C7: with tolerance 1/2 and patience 2 on the concrete metric
history `metricW`, the improvements at epochs 4 and 5 are the first two
consecutive sub-tolerance ones, so an 8-epoch run halts exactly at epoch 5. -/
theorem C7_early_stopping_halts_first_witness :
    (1 ≤ 5 ∧ 5 ≤ 8
        ∧ esTrigger (1/2) 2 metricW 5 = true
        ∧ ∀ t, t < 5 → esTrigger (1/2) 2 metricW t = false)
      ∧ esRun (esTrigger (1/2) 2 metricW) 8 = 5 :=
  ⟨⟨by norm_num, by norm_num,
    by norm_num [esTrigger, improvementAt, metricW, List.range_succ],
    by intro t ht; interval_cases t <;>
      norm_num [esTrigger, improvementAt, metricW, List.range_succ]⟩,
   C7_early_stopping_halts_first (1/2) 2 metricW 8 5
     (by norm_num) (by norm_num)
     (by norm_num [esTrigger, improvementAt, metricW, List.range_succ])
     (by intro t ht; interval_cases t <;>
        norm_num [esTrigger, improvementAt, metricW, List.range_succ])⟩

/-- The epoch-end hook changes only the record; period, metric dictionary and
keyword arguments are untouched. -/
theorem metricEpochEnd_fields {S : Type} (ev : MetricEvaluator S) (nn : S) (t : ℕ) :
    (metricEpochEnd ev nn t).period = ev.period
      ∧ (metricEpochEnd ev nn t).metrics = ev.metrics
      ∧ (metricEpochEnd ev nn t).kwargs = ev.kwargs := by
  unfold metricEpochEnd
  split <;> exact ⟨rfl, rfl, rfl⟩

/-- Training changes only the evaluator's record. -/
theorem runTraining_fields {S : Type} (ev : MetricEvaluator S) (nnSeq : ℕ → S) (e : ℕ) :
    (runTraining ev nnSeq e).period = ev.period
      ∧ (runTraining ev nnSeq e).metrics = ev.metrics
      ∧ (runTraining ev nnSeq e).kwargs = ev.kwargs := by
  induction e with
  | zero => exact ⟨rfl, rfl, rfl⟩
  | succ e ih =>
    have h := metricEpochEnd_fields (runTraining ev nnSeq e) (nnSeq (e + 1)) (e + 1)
    exact ⟨h.1.trans ih.1, h.2.1.trans ih.2.1, h.2.2.trans ih.2.2⟩

/-- One epoch's effect on a registered metric's sequence: exactly one value is
appended at evaluation epochs, nothing changes otherwise. -/
theorem runTraining_record_step {S : Type} (ev : MetricEvaluator S) (nnSeq : ℕ → S)
    (name : String) (f : S → Kwargs → ℚ) (hf : ev.metrics.lookup name = some f)
    (e : ℕ) :
    (runTraining ev nnSeq (e + 1)).record name =
      if (e + 1) % ev.period = 0
      then (runTraining ev nnSeq e).record name ++ [f (nnSeq (e + 1)) ev.kwargs]
      else (runTraining ev nnSeq e).record name := by
  have h := runTraining_fields ev nnSeq e
  show (metricEpochEnd (runTraining ev nnSeq e) (nnSeq (e + 1)) (e + 1)).record name = _
  unfold metricEpochEnd
  rw [h.1]
  split
  · simp only [evalStep, h.2.1, hf, h.2.2]
  · rfl

/-- After `E` epochs a registered metric's sequence holds exactly `E / p`
values, `p` the evaluation period. -/
theorem runTraining_record_length {S : Type} (p : ℕ)
    (ms : List (String × (S → Kwargs → ℚ))) (kw : Kwargs) (nnSeq : ℕ → S)
    (name : String) (f : S → Kwargs → ℚ) (hf : ms.lookup name = some f) (E : ℕ) :
    ((runTraining (mkMetricEvaluator S p ms kw) nnSeq E).record name).length = E / p := by
  induction E with
  | zero => simp [runTraining, mkMetricEvaluator]
  | succ E ih =>
    rw [runTraining_record_step (mkMetricEvaluator S p ms kw) nnSeq name f hf E,
      Nat.succ_div]
    by_cases h : p ∣ (E + 1)
    · have hm : (E + 1) % p = 0 := Nat.mod_eq_zero_of_dvd h
      have hp : (mkMetricEvaluator S p ms kw).period = p := rfl
      rw [hp, if_pos hm, if_pos h, List.length_append, ih]
      rfl
    · have hm : ¬(E + 1) % p = 0 := fun hh => h (Nat.dvd_of_mod_eq_zero hh)
      have hp : (mkMetricEvaluator S p ms kw).period = p := rfl
      rw [hp, if_neg hm, if_neg h, ih]
      omega

/-- The epoch-end hook only ever appends to a named sequence. -/
theorem metricEpochEnd_record_extend {S : Type} (ev : MetricEvaluator S) (nn : S)
    (t : ℕ) (name : String) :
    ∃ tail, (metricEpochEnd ev nn t).record name = ev.record name ++ tail := by
  unfold metricEpochEnd
  split
  · unfold evalStep
    cases hf : ev.metrics.lookup name with
    | some f => exact ⟨[f nn ev.kwargs], by simp [hf]⟩
    | none => exact ⟨[], by simp [hf]⟩
  · exact ⟨[], by simp⟩

/-- Across any span of training, a named sequence only grows: the earlier
record is an initial segment of the later one. -/
theorem runTraining_record_extend {S : Type} (ev : MetricEvaluator S) (nnSeq : ℕ → S)
    (name : String) (e e' : ℕ) (h : e ≤ e') :
    ∃ tail, (runTraining ev nnSeq e').record name
      = (runTraining ev nnSeq e).record name ++ tail := by
  induction e' with
  | zero =>
    have : e = 0 := Nat.le_zero.mp h
    subst this; exact ⟨[], by simp⟩
  | succ e' ih =>
    rcases Nat.lt_or_ge e (e' + 1) with hlt | hge
    · obtain ⟨t1, ht1⟩ := ih (Nat.lt_succ_iff.mp hlt)
      obtain ⟨t2, ht2⟩ := metricEpochEnd_record_extend (runTraining ev nnSeq e')
        (nnSeq (e' + 1)) (e' + 1) name
      exact ⟨t1 ++ t2, by
        show (metricEpochEnd (runTraining ev nnSeq e') (nnSeq (e' + 1))
          (e' + 1)).record name = _
        rw [ht2, ht1, List.append_assoc]⟩
    · have : e = e' + 1 := Nat.le_antisymm h hge
      subst this; exact ⟨[], by simp⟩

/-- Claim C4: for every training run, the `MetricEvaluator`'s record maps each
registered metric name to a sequence that is empty at training start, gets
exactly one value appended per evaluation period (every `period` epochs, the
metric function receiving the current NN-state and the keyword arguments), is
retained after training ends (it is the run's value at the final epoch), and
is never shortened or rolled back (every earlier record is an initial segment
of every later one). -/
theorem C4_metric_record_lifecycle {S : Type} (p : ℕ)
    (ms : List (String × (S → Kwargs → ℚ))) (kw : Kwargs) (nnSeq : ℕ → S)
    (name : String) (f : S → Kwargs → ℚ) (hf : ms.lookup name = some f) :
    (runTraining (mkMetricEvaluator S p ms kw) nnSeq 0).record name = []
      ∧ (∀ e, (runTraining (mkMetricEvaluator S p ms kw) nnSeq (e + 1)).record name =
          if (e + 1) % p = 0
          then (runTraining (mkMetricEvaluator S p ms kw) nnSeq e).record name
            ++ [f (nnSeq (e + 1)) kw]
          else (runTraining (mkMetricEvaluator S p ms kw) nnSeq e).record name)
      ∧ (∀ E, ((runTraining (mkMetricEvaluator S p ms kw) nnSeq E).record name).length
          = E / p)
      ∧ (∀ e e', e ≤ e' →
          ∃ tail, (runTraining (mkMetricEvaluator S p ms kw) nnSeq e').record name
            = (runTraining (mkMetricEvaluator S p ms kw) nnSeq e).record name ++ tail) :=
  ⟨rfl,
   fun e => runTraining_record_step (mkMetricEvaluator S p ms kw) nnSeq name f hf e,
   fun E => runTraining_record_length p ms kw nnSeq name f hf E,
   fun e e' h => runTraining_record_extend (mkMetricEvaluator S p ms kw) nnSeq name e e' h⟩

/-- Witness for C4: a one-metric evaluator with period 2 over the constant
NN-state trajectory. -/
theorem C4_metric_record_lifecycle_witness :
    (msOne.lookup "m" = some metricOne)
      ∧ ((runTraining (mkMetricEvaluator ℕ 2 msOne kwNil) nnSeqZero 0).record "m" = []
        ∧ (∀ e, (runTraining (mkMetricEvaluator ℕ 2 msOne kwNil) nnSeqZero
              (e + 1)).record "m" =
            if (e + 1) % 2 = 0
            then (runTraining (mkMetricEvaluator ℕ 2 msOne kwNil) nnSeqZero e).record "m"
              ++ [metricOne (nnSeqZero (e + 1)) kwNil]
            else (runTraining (mkMetricEvaluator ℕ 2 msOne kwNil) nnSeqZero e).record "m")
        ∧ (∀ E, ((runTraining (mkMetricEvaluator ℕ 2 msOne kwNil) nnSeqZero
              E).record "m").length = E / 2)
        ∧ (∀ e e', e ≤ e' →
            ∃ tail, (runTraining (mkMetricEvaluator ℕ 2 msOne kwNil) nnSeqZero
                e').record "m"
              = (runTraining (mkMetricEvaluator ℕ 2 msOne kwNil) nnSeqZero
                  e).record "m" ++ tail)) :=
  ⟨rfl, C4_metric_record_lifecycle 2 msOne kwNil nnSeqZero "m" metricOne rfl⟩

/-- Indexing an evaluator by a name reads its record at that name. -/
theorem metricGetItem_eq {S : Type} (ev : MetricEvaluator S) (name : String) :
    metricGetItem ev name = ev.record name := rfl

/-- Claim C10: after `fit` returns on the tutorial configuration (500 epochs,
period 25), indexing the `MetricEvaluator` by a metric name returns the full
recorded sequence for that metric, containing exactly
floor(epochs / period) = 20 values — one per evaluation at epochs
25, 50, …, 500 — matching the 20 evaluation lines the notebook printed. -/
theorem C10_tutorial_record_lengths {S : Type} (fFid fKL : S → Kwargs → ℚ)
    (kw : Kwargs) (nnSeq : ℕ → S) :
    (metricGetItem (runTraining (mkMetricEvaluator S tutorialPeriod
          [("Fidelity", fFid), ("KL", fKL)] kw) nnSeq tutorialEpochs)
        "Fidelity").length = tutorialEpochs / tutorialPeriod
      ∧ (metricGetItem (runTraining (mkMetricEvaluator S tutorialPeriod
            [("Fidelity", fFid), ("KL", fKL)] kw) nnSeq tutorialEpochs)
          "KL").length = tutorialEpochs / tutorialPeriod
      ∧ tutorialEpochs / tutorialPeriod = 20
      ∧ tutorialTrajectory.length = 20 := by
  refine ⟨?_, ?_, by norm_num [tutorialEpochs, tutorialPeriod], rfl⟩
  · rw [metricGetItem_eq]
    exact runTraining_record_length tutorialPeriod
      [("Fidelity", fFid), ("KL", fKL)] kw nnSeq "Fidelity" fFid rfl tutorialEpochs
  · rw [metricGetItem_eq]
    exact runTraining_record_length tutorialPeriod
      [("Fidelity", fFid), ("KL", fKL)] kw nnSeq "KL" fKL rfl tutorialEpochs

/-- The squared normalization of the rotation gates. -/
theorem invSqrt2_mul_self : invSqrt2 * invSqrt2 = (2 : ℂ)⁻¹ := by
  rw [invSqrt2, ← mul_inv]
  congr 1
  norm_cast
  rw [Real.mul_self_sqrt (by norm_num : (0:ℝ) ≤ 2)]

/-- The registered X-basis gate really is the Hadamard gate: it is real,
symmetric and squares to the identity (hence unitary). -/
theorem Hgate_involutive : Hgate * Hgate = 1 := by
  rw [Hgate, smul_mul_smul_comm, invSqrt2_mul_self, Matrix.mul_fin_two,
    Matrix.one_fin_two]
  norm_num

/-- The registered Y-basis gate is unitary. -/
theorem Kgate_unitary : Kgate * Kgate.conjTranspose = 1 := by
  rw [Kgate, Matrix.conjTranspose_smul]
  rw [smul_mul_smul_comm]
  have hc : star invSqrt2 = invSqrt2 := by
    simp [invSqrt2, ← Complex.ofReal_inv]
  rw [hc, invSqrt2_mul_self]
  have hct : (!![1, 1; Complex.I, -Complex.I] : Matrix (Fin 2) (Fin 2) ℂ).conjTranspose
      = !![1, -Complex.I; 1, Complex.I] := by
    ext i j
    fin_cases i <;> fin_cases j <;> simp [Matrix.conjTranspose_apply]
  rw [hct, Matrix.mul_fin_two, Matrix.one_fin_two]
  ext i j
  fin_cases i <;> fin_cases j <;>
    simp [Matrix.smul_apply, Complex.ext_iff] <;> norm_num [Complex.I_mul_I]

/-- Claim C9: the default unitary dictionary returned by
`unitaries.create_dict()` with no arguments contains exactly the keys "Z",
"X" and "Y", mapped respectively to the 2×2 identity, the Hadamard gate and
the K gate (the latter two genuinely being such: H squares to the identity,
K is unitary), so training data measured only in these three bases finds a
registered unitary for every basis label without any user-supplied
unitaries. -/
theorem C9_default_unitary_dict :
    create_dict.map Prod.fst = ["Z", "X", "Y"]
      ∧ create_dict.lookup "Z" = some Zgate ∧ Zgate = 1
      ∧ create_dict.lookup "X" = some Hgate ∧ Hgate * Hgate = 1
      ∧ create_dict.lookup "Y" = some Kgate ∧ Kgate * Kgate.conjTranspose = 1
      ∧ ∀ c ∈ (["Z", "X", "Y"] : List String), (create_dict.lookup c).isSome = true := by
  refine ⟨rfl, rfl, rfl, rfl, Hgate_involutive, rfl, Kgate_unitary, ?_⟩
  intro c hc
  simp only [List.mem_cons, List.not_mem_nil, or_false] at hc
  rcases hc with rfl | rfl | rfl <;> rfl

end QuCumber
